import Mathlib

/-!
Verification of the coredis lock manager and response-callback layer.

The lock manager (strategy selection, acquire/release/extend, scoped
acquisition) is embedded from the specification's Lock Manager contract,
since only its tests ship in the visible slice of the repository; the
`ClientTrackingInfoCallback.transform_3` embedding is taken directly from
`coredis/response/callbacks/connection.py`.

The server-side key space is modelled as an association list from key
names to stored entries (token value plus optional remaining expiry in
discrete time units); time during blocking acquisition is modelled as a
discrete counter advanced by the configured sleep interval between polls.
-/

/-- A value stored at a lock key on the server: the holder's token and the
remaining expiry (`none` = no expiry set, as reported by a negative TTL). -/
structure Entry where
  value : String
  pttl : Option Nat
deriving DecidableEq, Repr

/-- The server-side key space visible to the lock manager: an association
list from key names to entries. -/
abbrev Store := List (String × Entry)

/-- Look up the entry stored at key `k`. -/
def lookupk (s : Store) (k : String) : Option Entry :=
  match s with
  | [] => none
  | (k', e) :: rest => if k' = k then some e else lookupk rest k

/-- Delete every binding of key `k`. -/
def delk (s : Store) (k : String) : Store :=
  match s with
  | [] => []
  | (k', e) :: rest => if k' = k then delk rest k else (k', e) :: delk rest k

/-- Bind key `k` to entry `e`, replacing any previous binding. -/
def setk (s : Store) (k : String) (e : Entry) : Store :=
  (k, e) :: delk s k

/-- The reasons a lock operation fails with `LockError`. -/
inductive LockErr where
  /-- The caller holds no local token (never acquired, or already cleared). -/
  | noLocalToken
  /-- The stored value's token no longer matches the local token. -/
  | ownershipLost
  /-- The lock was created without an initial expiry: nothing to extend. -/
  | noInitialExpiry
  /-- Construction rejected: the poll sleep interval is not strictly
  smaller than the configured total timeout. -/
  | sleepGeTimeout
deriving DecidableEq, Repr

/-- Modelled from the spec: the Lock object of the Lock Manager (the
`coredis.lock` module is absent from the visible slice; only its tests are
present). `name` maps to a store key, `timeout` is the optional initial
expiry, `sleep` the poll interval, `blockingTimeout` the optional bound on
blocking acquisition, and `localToken` the locally held ownership token. -/
structure Lock where
  name : String
  timeout : Option Nat
  sleep : Nat
  blockingTimeout : Option Nat
  localToken : Option String
deriving DecidableEq, Repr

/-- Modelled from the spec: lock construction (absent `coredis.lock`
constructor). Construction-time validation fails with `LockError` if the
poll sleep interval is not strictly smaller than the configured total
timeout; the function takes no store and performs no network interaction. -/
def mkLock (name : String) (timeout : Option Nat) (sl : Nat)
    (blockingTimeout : Option Nat) : Except LockErr Lock :=
  match timeout with
  | some t =>
    if t ≤ sl then Except.error LockErr.sleepGeTimeout
    else Except.ok
      { name := name, timeout := some t, sleep := sl,
        blockingTimeout := blockingTimeout, localToken := none }
  | none => Except.ok
      { name := name, timeout := none, sleep := sl,
        blockingTimeout := blockingTimeout, localToken := none }

/-- Modelled from the spec: a single acquisition attempt — the server-side
set-if-absent primitive, atomic in both strategies. On success the key is
bound to the fresh token with the configured expiry and the token is kept
locally; on failure nothing changes. Returns (succeeded, store, lock). -/
def Lock.doAcquire (l : Lock) (tok : String) (s : Store) : Bool × Store × Lock :=
  match lookupk s l.name with
  | some _ => (false, s, l)
  | none =>
    (true, setk s l.name { value := tok, pttl := l.timeout },
     { l with localToken := some tok })

/-- Modelled from the spec: the blocking poll loop (absent `coredis.lock`
acquire loop) — attempt, and on contention either give up once `stopAt`
is passed or sleep for `l.sleep` time units and retry. `now` is the
discrete clock; `fuel` bounds the modelled recursion (`none` = fuel ran
out, a model artifact never reached with sufficient fuel). Returns
(succeeded, time of return, store, lock). -/
def pollLoop (l : Lock) (tok : String) (stopAt : Option Nat) (s : Store)
    (now fuel : Nat) : Option (Bool × Nat × Store × Lock) :=
  match fuel with
  | 0 => none
  | fuel' + 1 =>
    if (l.doAcquire tok s).1 then
      some (true, now, (l.doAcquire tok s).2.1, (l.doAcquire tok s).2.2)
    else
      match stopAt with
      | some b =>
        if b < now then some (false, now, s, l)
        else pollLoop l tok stopAt s (now + l.sleep) fuel'
      | none => pollLoop l tok stopAt s (now + l.sleep) fuel'

/-- Modelled from the spec: `acquire(blocking, ...)` (absent
`coredis.lock`). Non-blocking: one attempt, immediate boolean result at
time 0. Blocking: poll with the lock's sleep interval until success or
until `blockingTimeout` elapses; contention never raises — the result is
a boolean. -/
def Lock.acquire (l : Lock) (tok : String) (blocking : Bool) (s : Store)
    (fuel : Nat) : Option (Bool × Nat × Store × Lock) :=
  if blocking then pollLoop l tok l.blockingTimeout s 0 fuel
  else some ((l.doAcquire tok s).1, 0, (l.doAcquire tok s).2.1, (l.doAcquire tok s).2.2)

/-- Projection of an acquisition outcome to its boolean result. -/
def acqResult (r : Option (Bool × Nat × Store × Lock)) : Option Bool :=
  r.map (fun x => x.1)

/-- Whether the value stored at `name` carries exactly the token `tok`. -/
def tokenMatches (s : Store) (name tok : String) : Bool :=
  match lookupk s name with
  | some e => e.value == tok
  | none => false

/-- Modelled from the spec: `release()` (absent `coredis.lock`). Fails
with `LockError` if the caller holds no local token or if the stored
value's token no longer matches; in every failure case (and on success)
the local token is cleared as a side effect. Returns
(outcome, store, lock). -/
def Lock.release (l : Lock) (s : Store) : Except LockErr Unit × Store × Lock :=
  match l.localToken with
  | none => (Except.error LockErr.noLocalToken, s, l)
  | some tok =>
    match lookupk s l.name with
    | some e =>
      if e.value = tok then
        (Except.ok (), delk s l.name, { l with localToken := none })
      else (Except.error LockErr.ownershipLost, s, { l with localToken := none })
    | none => (Except.error LockErr.ownershipLost, s, { l with localToken := none })

/-- Modelled from the spec: `extend(additionalTime)` (absent
`coredis.lock`). Fails with `LockError` if the caller holds no local
token, if the lock was created without an initial expiry, or if ownership
no longer matches (a stored entry without a remaining expiry also counts
as lost ownership, as a non-positive TTL does). On success the new expiry
is the remaining expiry plus `additionalTime`. -/
def Lock.extend (l : Lock) (additionalTime : Nat) (s : Store) :
    Except LockErr Store :=
  match l.localToken with
  | none => Except.error LockErr.noLocalToken
  | some tok =>
    match l.timeout with
    | none => Except.error LockErr.noInitialExpiry
    | some _ =>
      match lookupk s l.name with
      | none => Except.error LockErr.ownershipLost
      | some e =>
        if e.value = tok then
          match e.pttl with
          | some rem =>
            Except.ok (setk s l.name { value := tok, pttl := some (rem + additionalTime) })
          | none => Except.error LockErr.ownershipLost
        else Except.error LockErr.ownershipLost

/-- Modelled from the spec: scoped (context-manager) acquisition (absent
`coredis.lock` `__aenter__`/`__aexit__`). Acquire; run the body (which may
finish normally or raise, modelled as an `Except` outcome that does not
touch the store); release in a finally-style guaranteed cleanup on every
exit path; the body's outcome propagates. -/
def withLock (l : Lock) (tok : String) (s : Store) (body : Except String Unit) :
    Except String Unit × Store :=
  if (l.doAcquire tok s).1 then
    (body, ((l.doAcquire tok s).2.2.release (l.doAcquire tok s).2.1).2.1)
  else (Except.error "acquire failed", s)

/-- The two lock strategies exposed to callers: the atomic script-based
one (`lua`) and the compare-then-act fallback (`plain`). -/
inductive LockClass where
  | lua
  | plain
deriving DecidableEq, Repr

/-- Modelled from the spec: the per-client sticky strategy-selection flag
(absent client class). `none` = unknown, `some true` = atomic available,
`some false` = atomic unavailable. -/
structure Client where
  useLuaLock : Option Bool
deriving DecidableEq, Repr

/-- Modelled from the spec: the lock factory's strategy selection (absent
`client.lock`). An explicit `explicitClass` bypasses the probe and the
cache entirely (per the repository's lock tests); otherwise the cached
flag decides, and when the flag is unknown the atomic scripts are
installed once — `registerOk` models whether that installation succeeds;
a failure is swallowed and cached as a permanent downgrade. Returns the
chosen class and the updated client. -/
def Client.lockSelect (c : Client) (explicitClass : Option LockClass)
    (registerOk : Bool) : LockClass × Client :=
  match explicitClass with
  | some cls => (cls, c)
  | none =>
    match c.useLuaLock with
    | some true => (LockClass.lua, c)
    | some false => (LockClass.plain, c)
    | none =>
      if registerOk then (LockClass.lua, { useLuaLock := some true })
      else (LockClass.plain, { useLuaLock := some false })

/-- A decoded wire value as seen by response callbacks: strings, integers,
plain (mutable) dicts and frozen dicts, keyed by strings. -/
inductive RValue where
  | str : String → RValue
  | int : Int → RValue
  | dict : List (String × RValue) → RValue
  | frozen : List (String × RValue) → RValue

namespace ClientTrackingInfoCallback

/-- `ClientTrackingInfoCallback.transform_3` from
`coredis/response/callbacks/connection.py`: if the response is a
frozendict, return a plain dict built from it; otherwise return the
response unchanged. -/
def transform_3 (response : RValue) : RValue :=
  match response with
  | RValue.frozen pairs => RValue.dict pairs
  | r => r

end ClientTrackingInfoCallback

/-! ### Sample locks, clients and stores used by the concrete witnesses -/

/-- A fresh lock on key "foo" with no initial expiry, sleep interval 1. -/
def wLockPlain : Lock :=
  { name := "foo", timeout := none, sleep := 1, blockingTimeout := none,
    localToken := none }

/-- A fresh lock on key "foo" with initial expiry 10, sleep interval 1. -/
def wLockTimed : Lock :=
  { name := "foo", timeout := some 10, sleep := 1, blockingTimeout := none,
    localToken := none }

/-- A lock on "foo" that locally holds token "tok", with initial expiry 10. -/
def wLockHeld : Lock :=
  { name := "foo", timeout := some 10, sleep := 1, blockingTimeout := none,
    localToken := some "tok" }

/-- A lock on "foo" with blocking timeout 2 and sleep interval 1. -/
def wLockBlocking : Lock :=
  { name := "foo", timeout := none, sleep := 1, blockingTimeout := some 2,
    localToken := none }

/-- A store in which "foo" is held with token "tok" and 10 units left. -/
def wStoreHeld : Store := [("foo", { value := "tok", pttl := some 10 })]

/-- A store in which "foo" is held by somebody else's token. -/
def wStoreOther : Store := [("foo", { value := "a", pttl := none })]

/-! ### Claim theorems -/

theorem lookupk_setk_self (s : Store) (k : String) (e : Entry) :
    lookupk (setk s k e) k = some e := by
  simp [setk, lookupk]

theorem lookupk_delk_self (s : Store) (k : String) :
    lookupk (delk s k) k = none := by
  induction s with
  | nil => simp [delk, lookupk]
  | cons p rest ih =>
    obtain ⟨k', e⟩ := p
    by_cases h : k' = k
    · simp [delk, h, ih]
    · simp [delk, h, lookupk, ih]

/-- C9: `ClientTrackingInfoCallback.transform_3` is a pure total function
(a total Lean function of the response value alone, touching no other
state): a frozendict input yields a plain dict with exactly the same
key-value pairs, the input itself being left unchanged by construction;
any non-frozendict input is returned unchanged. -/
theorem transform_3_spec (r : RValue) :
    (∀ ps, r = RValue.frozen ps →
      ClientTrackingInfoCallback.transform_3 r = RValue.dict ps)
    ∧ ((∀ ps, r ≠ RValue.frozen ps) →
      ClientTrackingInfoCallback.transform_3 r = r) := by
  constructor
  · intro ps h
    subst h
    rfl
  · intro h
    cases r with
    | str s => rfl
    | int n => rfl
    | dict ps => rfl
    | frozen ps => exact absurd rfl (h ps)

/-- Witness for C9: a concrete frozendict is turned into the plain dict
with the same pairs, and a concrete string is returned unchanged. -/
theorem transform_3_spec_witness :
    ClientTrackingInfoCallback.transform_3 (RValue.frozen [("a", RValue.int 1)])
      = RValue.dict [("a", RValue.int 1)]
    ∧ ClientTrackingInfoCallback.transform_3 (RValue.str "x") = RValue.str "x" :=
  ⟨(transform_3_spec (RValue.frozen [("a", RValue.int 1)])).1 _ rfl,
   (transform_3_spec (RValue.str "x")).2 (fun _ h => RValue.noConfusion h)⟩

/-- C10: an explicit `lock_class` argument makes the factory return exactly
that class, for every value of the cached strategy-selection flag (the
client `c` is arbitrary) and independently of the probe outcome
(`registerOk` is arbitrary): the probe and the cache are bypassed entirely
and the client is left unchanged. -/
theorem lockSelect_explicit_class (c : Client) (cls : LockClass)
    (registerOk : Bool) :
    c.lockSelect (some cls) registerOk = (cls, c) := by
  rfl

/-- C2: with the flag unknown, the first lock construction probes script
installation once; a failing probe is swallowed into a cached downgrade
(`some false`, fallback class) and a succeeding probe caches `some true`
(atomic class); in either case every later construction on the resulting
client returns the cached choice for every probe outcome `r`, leaving the
client unchanged — so the one-time outcome is permanent. -/
theorem lockSelect_probe_once (c : Client) (hc : c.useLuaLock = none) :
    (c.lockSelect none false = (LockClass.plain, { useLuaLock := some false })
      ∧ ∀ r, Client.lockSelect { useLuaLock := some false } none r
          = (LockClass.plain, { useLuaLock := some false }))
    ∧ (c.lockSelect none true = (LockClass.lua, { useLuaLock := some true })
      ∧ ∀ r, Client.lockSelect { useLuaLock := some true } none r
          = (LockClass.lua, { useLuaLock := some true })) := by
  obtain ⟨flag⟩ := c
  cases hc
  refine ⟨⟨rfl, fun r => rfl⟩, ⟨rfl, fun r => rfl⟩⟩

/-- Witness for C2: on a concrete fresh client a failing probe downgrades
to the fallback class and caches the flag, and a later construction with a
now-succeeding probe still returns the fallback class. -/
theorem lockSelect_probe_once_witness :
    Client.lockSelect { useLuaLock := none } none false
        = (LockClass.plain, { useLuaLock := some false })
    ∧ Client.lockSelect { useLuaLock := some false } none true
        = (LockClass.plain, { useLuaLock := some false }) :=
  ⟨(lockSelect_probe_once { useLuaLock := none } rfl).1.1,
   (lockSelect_probe_once { useLuaLock := none } rfl).1.2 true⟩

/-- C6: constructing a lock whose poll sleep interval is not strictly
smaller than the configured total timeout (timeout ≤ sleep) fails with
`LockError` immediately; `mkLock` takes no store and performs no network
interaction. -/
theorem mkLock_sleep_ge_timeout (name : String) (t sl : Nat)
    (bt : Option Nat) (h : t ≤ sl) :
    mkLock name (some t) sl bt = Except.error LockErr.sleepGeTimeout := by
  simp [mkLock, h]

/-- Witness for C6: timeout 1 with sleep 2 (the repository's
`test_high_sleep_raises_error` input) is rejected at construction. -/
theorem mkLock_sleep_ge_timeout_witness :
    mkLock "foo" (some 1) 2 none = Except.error LockErr.sleepGeTimeout :=
  mkLock_sleep_ge_timeout "foo" 1 2 none (by decide)

/-- C3: `release()` fails in exactly two situations — no local token
(never acquired), reported as `noLocalToken`, or a stored value no longer
matching the local token (lock lost), reported as `ownershipLost`; in
every failure the local token of the resulting lock is cleared, so a
second `release()` on it fails again, now with `noLocalToken`. -/
theorem release_spec (l : Lock) (s : Store) :
    ((l.release s).1 = Except.error LockErr.noLocalToken ↔ l.localToken = none)
    ∧ (∀ tok, l.localToken = some tok →
        ((l.release s).1 = Except.error LockErr.ownershipLost
          ↔ tokenMatches s l.name tok = false))
    ∧ (∀ err, (l.release s).1 = Except.error err →
        ((l.release s).2.2.localToken = none
          ∧ ((l.release s).2.2.release ((l.release s).2.1)).1
              = Except.error LockErr.noLocalToken)) := by
  cases htok : l.localToken with
  | none =>
    refine ⟨by simp [Lock.release, htok], ?_, ?_⟩
    · intro tok h
      simp [htok] at h
    · intro err _
      simp [Lock.release, htok]
  | some tok =>
    cases hl : lookupk s l.name with
    | none =>
      refine ⟨by simp [Lock.release, htok, hl], ?_, ?_⟩
      · intro tok' htok'
        injection htok' with hh
        subst hh
        simp [Lock.release, htok, hl, tokenMatches]
      · intro err _
        simp [Lock.release, htok, hl]
    | some e =>
      by_cases hv : e.value = tok
      · refine ⟨by simp [Lock.release, htok, hl, hv], ?_, ?_⟩
        · intro tok' htok'
          injection htok' with hh
          subst hh
          simp [Lock.release, htok, hl, hv, tokenMatches]
        · intro err herr
          simp [Lock.release, htok, hl, hv] at herr
      · refine ⟨by simp [Lock.release, htok, hl, hv], ?_, ?_⟩
        · intro tok' htok'
          injection htok' with hh
          subst hh
          simp [Lock.release, htok, hl, hv, tokenMatches]
        · intro err _
          simp [Lock.release, htok, hl, hv]

/-- Witness for C3: releasing a never-acquired concrete lock fails with
`noLocalToken`; releasing a held concrete lock whose stored value was
overwritten fails with `ownershipLost`, clears the token, and releasing
again fails with `noLocalToken`. -/
theorem release_spec_witness :
    (wLockPlain.release [] ).1 = Except.error LockErr.noLocalToken
    ∧ (wLockHeld.release wStoreOther).1 = Except.error LockErr.ownershipLost
    ∧ (wLockHeld.release wStoreOther).2.2.localToken = none
    ∧ ((wLockHeld.release wStoreOther).2.2.release
        ((wLockHeld.release wStoreOther).2.1)).1
        = Except.error LockErr.noLocalToken :=
  ⟨(release_spec wLockPlain []).1.mpr rfl,
   ((release_spec wLockHeld wStoreOther).2.1 "tok" rfl).mpr (by decide),
   (((release_spec wLockHeld wStoreOther).2.2 LockErr.ownershipLost
      (((release_spec wLockHeld wStoreOther).2.1 "tok" rfl).mpr (by decide)))).1,
   (((release_spec wLockHeld wStoreOther).2.2 LockErr.ownershipLost
      (((release_spec wLockHeld wStoreOther).2.1 "tok" rfl).mpr (by decide)))).2⟩

/-- C4: on a held lock created with an initial expiry, whose stored entry
carries its token with `rem` time units remaining, a successful
`extend(add)` rebinds the key so that the remaining expiry becomes
`rem + add` — additive, not a reset to `add`. -/
theorem extend_additive (l : Lock) (s : Store) (tok : String)
    (t rem add : Nat) (htok : l.localToken = some tok)
    (hto : l.timeout = some t)
    (hstore : lookupk s l.name = some { value := tok, pttl := some rem }) :
    l.extend add s
      = Except.ok (setk s l.name { value := tok, pttl := some (rem + add) })
    ∧ lookupk ((l.extend add s).toOption.getD s) l.name
      = some { value := tok, pttl := some (rem + add) } := by
  have hext : l.extend add s
      = Except.ok (setk s l.name { value := tok, pttl := some (rem + add) }) := by
    simp [Lock.extend, htok, hto, hstore]
  refine ⟨hext, ?_⟩
  rw [hext]
  simpa using lookupk_setk_self s l.name { value := tok, pttl := some (rem + add) }

/-- Witness for C4: extending a concrete held lock with 10 units remaining
by 10 yields a stored expiry of 20. -/
theorem extend_additive_witness :
    wLockHeld.extend 10 wStoreHeld
      = Except.ok (setk wStoreHeld "foo" { value := "tok", pttl := some 20 })
    ∧ lookupk ((wLockHeld.extend 10 wStoreHeld).toOption.getD wStoreHeld) "foo"
      = some { value := "tok", pttl := some 20 } :=
  extend_additive wLockHeld wStoreHeld "tok" 10 10 10 rfl rfl rfl

/-- C5: `extend(add)` fails with `LockError` — never silently succeeding —
whenever the lock was created without an initial expiry (for every store,
held or not), whenever the caller holds no local token, and whenever the
stored value no longer matches the local token. -/
theorem extend_errors (l : Lock) (s : Store) (add : Nat) :
    (l.timeout = none → (l.extend add s).isOk = false)
    ∧ (l.localToken = none → (l.extend add s).isOk = false)
    ∧ (∀ tok, l.localToken = some tok → tokenMatches s l.name tok = false →
        (l.extend add s).isOk = false) := by
  refine ⟨?_, ?_, ?_⟩
  · intro hto
    cases htok : l.localToken with
    | none => simp [Lock.extend, htok, Except.isOk, Except.toBool]
    | some tok => simp [Lock.extend, htok, hto, Except.isOk, Except.toBool]
  · intro htok
    simp [Lock.extend, htok, Except.isOk, Except.toBool]
  · intro tok htok hmatch
    cases hto : l.timeout with
    | none => simp [Lock.extend, htok, hto, Except.isOk, Except.toBool]
    | some t =>
      cases hl : lookupk s l.name with
      | none => simp [Lock.extend, htok, hto, hl, Except.isOk, Except.toBool]
      | some e =>
        have hv : ¬ e.value = tok := by
          simp [tokenMatches, hl] at hmatch
          exact hmatch
        simp [Lock.extend, htok, hto, hl, hv, Except.isOk, Except.toBool]

/-- Witness for C5: extending a concrete held lock with no initial expiry
fails, extending a never-acquired lock fails, and extending a lock whose
stored value was overwritten fails. -/
theorem extend_errors_witness :
    (({ wLockPlain with localToken := some "tok" } : Lock).extend 10
        [("foo", { value := "tok", pttl := none })]).isOk = false
    ∧ (wLockTimed.extend 10 wStoreHeld).isOk = false
    ∧ (wLockHeld.extend 10 wStoreOther).isOk = false :=
  ⟨(extend_errors { wLockPlain with localToken := some "tok" }
      [("foo", { value := "tok", pttl := none })] 10).1 rfl,
   (extend_errors wLockTimed wStoreHeld 10).2.1 rfl,
   (extend_errors wLockHeld wStoreOther 10).2.2 "tok" rfl (by decide)⟩

/-- C1: for two locks on the same free name, the first non-blocking
acquire succeeds; while it holds the key, the other lock's non-blocking
acquire returns false and leaves everything unchanged; the holder's
release succeeds; and after it, the other lock's non-blocking acquire
succeeds — so at most one of the two is ever in the HELD state. -/
theorem lock_mutual_exclusion (l1 l2 : Lock) (t1 t2 : String) (s : Store)
    (f1 f2 f3 : Nat) (hname : l2.name = l1.name)
    (hfree : lookupk s l1.name = none) :
    acqResult (l1.acquire t1 false s f1) = some true
    ∧ acqResult (l2.acquire t2 false (l1.doAcquire t1 s).2.1 f2) = some false
    ∧ ((l1.doAcquire t1 s).2.2.release (l1.doAcquire t1 s).2.1).1 = Except.ok ()
    ∧ acqResult (l2.acquire t2 false
        ((l1.doAcquire t1 s).2.2.release (l1.doAcquire t1 s).2.1).2.1 f3)
      = some true := by
  have h1 : (l1.doAcquire t1 s).1 = true := by
    simp [Lock.doAcquire, hfree]
  have h21 : (l1.doAcquire t1 s).2.1
      = setk s l1.name { value := t1, pttl := l1.timeout } := by
    simp [Lock.doAcquire, hfree]
  have h22 : (l1.doAcquire t1 s).2.2 = { l1 with localToken := some t1 } := by
    simp [Lock.doAcquire, hfree]
  have hset : lookupk (setk s l1.name { value := t1, pttl := l1.timeout }) l1.name
      = some { value := t1, pttl := l1.timeout } :=
    lookupk_setk_self s l1.name { value := t1, pttl := l1.timeout }
  have hrel : ({ l1 with localToken := some t1} : Lock).release
      (setk s l1.name { value := t1, pttl := l1.timeout })
      = (Except.ok (), delk (setk s l1.name { value := t1, pttl := l1.timeout }) l1.name,
         { l1 with localToken := none }) := by
    simp [Lock.release, hset]
  refine ⟨?_, ?_, ?_, ?_⟩
  · simp [Lock.acquire, acqResult, h1]
  · rw [h21]
    simp [Lock.acquire, acqResult, Lock.doAcquire, hname, hset]
  · rw [h22, h21, hrel]
  · rw [h22, h21, hrel]
    simp [Lock.acquire, acqResult, Lock.doAcquire, hname, lookupk_delk_self]

/-- Witness for C1: the full competing-locks scenario on key "foo" from an
empty store. -/
theorem lock_mutual_exclusion_witness :
    acqResult (wLockPlain.acquire "t1" false [] 1) = some true
    ∧ acqResult (wLockTimed.acquire "t2" false (wLockPlain.doAcquire "t1" []).2.1 1)
      = some false
    ∧ ((wLockPlain.doAcquire "t1" []).2.2.release
        (wLockPlain.doAcquire "t1" []).2.1).1 = Except.ok ()
    ∧ acqResult (wLockTimed.acquire "t2" false
        ((wLockPlain.doAcquire "t1" []).2.2.release
          (wLockPlain.doAcquire "t1" []).2.1).2.1 1)
      = some true :=
  lock_mutual_exclusion wLockPlain wLockTimed "t1" "t2" [] 1 1 1 rfl rfl

/-- C8: under scoped acquisition on a free name, the key holds the local
token for the whole scope, and on every exit path — the body finishing
normally or raising — the guaranteed cleanup releases it, so the key is
absent afterwards while the body's own outcome propagates. -/
theorem withLock_releases (l : Lock) (tok : String) (s : Store)
    (hfree : lookupk s l.name = none) :
    lookupk (l.doAcquire tok s).2.1 l.name
      = some { value := tok, pttl := l.timeout }
    ∧ ∀ body : Except String Unit,
        lookupk (withLock l tok s body).2 l.name = none
        ∧ (withLock l tok s body).1 = body := by
  have hacq : l.doAcquire tok s
      = (true, setk s l.name { value := tok, pttl := l.timeout },
         { l with localToken := some tok }) := by
    simp [Lock.doAcquire, hfree]
  have hset : lookupk (setk s l.name { value := tok, pttl := l.timeout }) l.name
      = some { value := tok, pttl := l.timeout } :=
    lookupk_setk_self s l.name { value := tok, pttl := l.timeout }
  refine ⟨by simp [hacq, hset], ?_⟩
  intro body
  have hrel : ({ l with localToken := some tok} : Lock).release
      (setk s l.name { value := tok, pttl := l.timeout })
      = (Except.ok (), delk (setk s l.name { value := tok, pttl := l.timeout }) l.name,
         { l with localToken := none }) := by
    simp [Lock.release, hset]
  constructor
  · simp [withLock, hacq, hrel, lookupk_delk_self]
  · simp [withLock, hacq]

/-- Witness for C8: a concrete scope on key "foo" holds the token inside
and leaves the key absent after both a normal and a failing body. -/
theorem withLock_releases_witness :
    lookupk (wLockTimed.doAcquire "tok" []).2.1 "foo"
      = some { value := "tok", pttl := some 10 }
    ∧ lookupk (withLock wLockTimed "tok" [] (Except.ok ())).2 "foo" = none
    ∧ lookupk (withLock wLockTimed "tok" [] (Except.error "boom")).2 "foo" = none
    ∧ (withLock wLockTimed "tok" [] (Except.error "boom")).1
      = Except.error "boom" :=
  ⟨(withLock_releases wLockTimed "tok" [] rfl).1,
   ((withLock_releases wLockTimed "tok" [] rfl).2 (Except.ok ())).1,
   ((withLock_releases wLockTimed "tok" [] rfl).2 (Except.error "boom")).1,
   ((withLock_releases wLockTimed "tok" [] rfl).2 (Except.error "boom")).2⟩

theorem doAcquire_fst_of_held (l : Lock) (tok : String) (s : Store) (e : Entry)
    (hheld : lookupk s l.name = some e) : (l.doAcquire tok s).1 = false := by
  simp [Lock.doAcquire, hheld]

theorem pollLoop_false_lower_bound (l : Lock) (tok : String) (b : Nat)
    (s : Store) :
    ∀ fuel now T sres lres,
      pollLoop l tok (some b) s now fuel = some (false, T, sres, lres) → b < T := by
  intro fuel
  induction fuel with
  | zero =>
    intro now T sres lres h
    simp [pollLoop] at h
  | succ f ih =>
    intro now T sres lres h
    rw [pollLoop] at h
    cases hacq : (l.doAcquire tok s).1 with
    | true =>
      rw [hacq] at h
      simp at h
    | false =>
      rw [hacq] at h
      simp only [Bool.false_eq_true, if_false] at h
      by_cases hb : b < now
      · rw [if_pos hb] at h
        injection h with h'
        injection h' with h1 h2
        injection h2 with hT _
        rw [← hT]
        exact hb
      · rw [if_neg hb] at h
        exact ih (now + l.sleep) T sres lres h

theorem pollLoop_contended_false (l : Lock) (tok : String) (b : Nat)
    (s : Store) (e : Entry) (hheld : lookupk s l.name = some e) :
    ∀ fuel now, (∃ k, k < fuel ∧ b < now + k * l.sleep) →
      pollLoop l tok (some b) s now fuel
        = some (false, (pollLoop l tok (some b) s now fuel).getD
            (false, 0, s, l) |>.2.1, s, l) := by
  intro fuel
  induction fuel with
  | zero =>
    intro now h
    obtain ⟨k, hk, _⟩ := h
    exact absurd hk (Nat.not_lt_zero k)
  | succ f ih =>
    intro now h
    have hacq := doAcquire_fst_of_held l tok s e hheld
    by_cases hb : b < now
    · rw [pollLoop]
      simp [hacq, hb]
    · obtain ⟨k, hk, hbk⟩ := h
      have hk0 : k ≠ 0 := by
        intro h0
        rw [h0, Nat.zero_mul, Nat.add_zero] at hbk
        exact hb hbk
      obtain ⟨k', rfl⟩ := Nat.exists_eq_succ_of_ne_zero hk0
      have hrec : ∃ k, k < f ∧ b < (now + l.sleep) + k * l.sleep := by
        refine ⟨k', Nat.lt_of_succ_lt_succ hk, ?_⟩
        have : now + (k' + 1) * l.sleep = (now + l.sleep) + k' * l.sleep := by
          ring
        rw [this] at hbk
        exact hbk
      have hstep : pollLoop l tok (some b) s now (f + 1)
          = pollLoop l tok (some b) s (now + l.sleep) f := by
        rw [pollLoop]
        simp [hacq, hb]
      rw [hstep]
      exact ih (now + l.sleep) hrec

/-- C7: a blocking acquire with a finite `blockingTimeout` of `b` against
a lock already held by another owner returns `false` — contention never
raises, the outcome is a boolean — and it returns only at a time `T` with
at least `b` time units elapsed since the call began. -/
theorem blocking_acquire_timeout (l : Lock) (tok : String) (s : Store)
    (e : Entry) (b fuel : Nat) (hheld : lookupk s l.name = some e)
    (hbt : l.blockingTimeout = some b) (hsl : 1 ≤ l.sleep)
    (hfuel : b + 2 ≤ fuel) :
    acqResult (l.acquire tok true s fuel) = some false
    ∧ ∀ T sres lres, l.acquire tok true s fuel = some (false, T, sres, lres) →
        b ≤ T := by
  have hunfold : l.acquire tok true s fuel
      = pollLoop l tok (some b) s 0 fuel := by
    simp [Lock.acquire, hbt]
  have hex : ∃ k, k < fuel ∧ b < 0 + k * l.sleep := by
    refine ⟨b + 1, by omega, ?_⟩
    have h1 : (b + 1) * 1 ≤ (b + 1) * l.sleep :=
      Nat.mul_le_mul_left (b + 1) hsl
    calc b < b + 1 := Nat.lt_succ_self b
    _ = (b + 1) * 1 := by ring
    _ ≤ (b + 1) * l.sleep := h1
    _ = 0 + (b + 1) * l.sleep := by ring
  have hfalse := pollLoop_contended_false l tok b s e hheld fuel 0 hex
  constructor
  · rw [hunfold, hfalse]
    simp [acqResult]
  · intro T sres lres hT
    rw [hunfold] at hT
    exact Nat.le_of_lt
      (pollLoop_false_lower_bound l tok b s fuel 0 T sres lres hT)

/-- Witness for C7: against a concretely held key, a blocking acquire with
timeout 2 and sleep 1 returns `false` at time 3, no earlier than 2. -/
theorem blocking_acquire_timeout_witness :
    acqResult (wLockBlocking.acquire "t" true wStoreOther 4) = some false
    ∧ 2 ≤ 3 :=
  ⟨(blocking_acquire_timeout wLockBlocking "t" wStoreOther
      { value := "a", pttl := none } 2 4 rfl rfl (by decide) (by decide)).1,
   (blocking_acquire_timeout wLockBlocking "t" wStoreOther
      { value := "a", pttl := none } 2 4 rfl rfl (by decide) (by decide)).2
     3 wStoreOther wLockBlocking (by decide)⟩
